import Mathlib

/-!
Verification of the EduBot NAAC document pipeline (change detection, download,
versioning, orchestration, scheduling).

Shallow embedding conventions:
* Python dataclasses become Lean structures with the source field names.
* Version labels `"1.0"`, `"1.1"`, ... are represented in tenths (`10`, `11`, ...);
  `formatLabel` renders the decimal string.  `max(floats) + 0.1` formatted with one
  decimal place is `maxLabel + 1` in tenths for every label the code can generate.
* Timestamps (`datetime.now().isoformat()`) are naturals; the ISO strings produced
  by one process compare lexicographically exactly as the instants compare, which a
  strictly increasing clock models.
* External effects (hashlib.md5, file contents on disk, the ingestion pipeline,
  the network) are parameters of the definitions that call them.
-/

namespace EduBot

/-- Discovered document metadata (naac_watcher.DocumentInfo). -/
structure DocumentInfo where
  title : String
  url : String
  file_type : String
  size : Option String := none
  last_modified : Option String := none
  checksum : Option String := none
  criterion : Option String := none
  version : Option String := none
  document_type : String := "naac_requirement"
deriving Repr, DecidableEq

/-- Result of one download attempt (downloader.DownloadResult). -/
structure DownloadResult where
  document_info : DocumentInfo
  success : Bool
  file_path : Option String := none
  file_size : Option Nat := none
  error_message : Option String := none
  checksum : Option String := none
deriving Repr, DecidableEq

/-- One registered document version (version_manager.DocumentVersion); the
version label is stored in tenths. -/
structure DocumentVersion where
  document_id : String
  version : Nat
  file_path : String
  checksum : String
  timestamp : Nat
  file_size : Nat
  is_current : Bool
  metadata : DocumentInfo
deriving Repr, DecidableEq

/-- Render a tenths label the way the one-decimal float format renders it, for
the labels the manager generates. -/
def formatLabel (n : Nat) : String :=
  toString (n / 10) ++ "." ++ toString (n % 10)

/-- NAACVersionManager._generate_document_id: md5 of the url (title when the url
is empty), optionally prefixed with the criterion.  `md5hex` stands for the
external hash. -/
def generateDocumentId (md5hex : String → String) (doc : DocumentInfo) : String :=
  let identifier := if doc.url ≠ "" then doc.url else doc.title
  let doc_hash := md5hex identifier
  match doc.criterion with
  | some c => if c ≠ "" then "naac_c" ++ c ++ "_" ++ doc_hash else "naac_" ++ doc_hash
  | none => "naac_" ++ doc_hash

/-- Comparison key used by `_cleanup_old_versions` (`key=lambda x: x['timestamp']`). -/
def tsLe (a b : DocumentVersion) : Prop := a.timestamp ≤ b.timestamp

instance : DecidableRel tsLe := fun a b => Nat.decLe a.timestamp b.timestamp

instance : IsTotal DocumentVersion tsLe := ⟨fun a b => Nat.le_total a.timestamp b.timestamp⟩

instance : IsTrans DocumentVersion tsLe := ⟨fun _ _ _ => Nat.le_trans⟩

/-- The stable sort `versions.sort(key=lambda x: x['timestamp'])`. -/
def sortByTimestamp (vs : List DocumentVersion) : List DocumentVersion :=
  vs.insertionSort tsLe

/-- NAACVersionManager._cleanup_old_versions: when the count exceeds the cap,
sort by timestamp and drop the oldest `length - cap` (`versions[:-cap]`; for
`cap = 0` the Python slice `[:-0]` is empty, so nothing is removed). -/
def cleanupOldVersions (cap : Nat) (vs : List DocumentVersion) : List DocumentVersion :=
  if vs.length > cap then
    if cap = 0 then sortByTimestamp vs
    else (sortByTimestamp vs).drop (vs.length - cap)
  else vs

/-- The flip `version_data['is_current'] = False`. -/
def markNotCurrent (v : DocumentVersion) : DocumentVersion :=
  { v with is_current := false }

/-- Numeric maximum of the existing labels (`max(float(v['version']) ...)`). -/
def maxLabel (vs : List DocumentVersion) : Nat :=
  (vs.map (fun v => v.version)).foldl Nat.max 0

/-- NAACVersionManager._is_new_version: true iff the checksum matches no
existing version. -/
def isNewVersion (existing : List DocumentVersion) (new_checksum : String) : Bool :=
  existing.all (fun v => v.checksum ≠ new_checksum)

/-- Registry entry produced by `_handle_document_update`: flip every prior
version to non-current, append the new current version, then clean up. -/
def updatedVersionList (cap : Nat) (vs : List DocumentVersion)
    (newv : DocumentVersion) : List DocumentVersion :=
  cleanupOldVersions cap (vs.map markNotCurrent ++ [newv])

/-- Operation kinds recorded by the version manager. -/
inductive OpType
  | new_document
  | update_document
  | no_change
deriving Repr, DecidableEq

/-- Audit record of one processed document (version_manager.UpdateOperation). -/
structure UpdateOperation where
  operation_type : OpType
  document_info : DocumentInfo
  old_version : Option Nat := none
  new_version : Option Nat := none
  status : String := "completed"
deriving Repr, DecidableEq

/-- In-memory state of the version manager: the version registry plus a clock
standing for `datetime.now()` (strictly later at every later call). -/
structure VMState where
  registry : String → List DocumentVersion
  clock : Nat

/-- Point update of the registry dictionary. -/
def updateRegistry (reg : String → List DocumentVersion) (d : String)
    (vs : List DocumentVersion) : String → List DocumentVersion :=
  fun x => if x = d then vs else reg x

/-- NAACVersionManager._process_single_document on a successful download whose
file is at `path`: new document, genuine update, or no change.  `fileChecksum`
stands for `_calculate_file_checksum` reading the disk. -/
def newVersionEntry (md5hex fileChecksum : String → String) (s : VMState)
    (res : DownloadResult) (path : String) (label : Nat) : DocumentVersion :=
  { document_id := generateDocumentId md5hex res.document_info, version := label,
    file_path := path, checksum := fileChecksum path, timestamp := s.clock,
    file_size := res.file_size.getD 0, is_current := true,
    metadata := res.document_info }

def processSingleResult (md5hex fileChecksum : String → String) (cap : Nat)
    (s : VMState) (res : DownloadResult) (path : String) :
    VMState × UpdateOperation :=
  if hempty : s.registry (generateDocumentId md5hex res.document_info) = [] then
    (⟨updateRegistry s.registry (generateDocumentId md5hex res.document_info)
        [newVersionEntry md5hex fileChecksum s res path 10], s.clock + 1⟩,
     { operation_type := OpType.new_document, document_info := res.document_info,
       new_version := some 10 })
  else if isNewVersion (s.registry (generateDocumentId md5hex res.document_info))
      (fileChecksum path) then
    (⟨updateRegistry s.registry (generateDocumentId md5hex res.document_info)
        (updatedVersionList cap (s.registry (generateDocumentId md5hex res.document_info))
          (newVersionEntry md5hex fileChecksum s res path
            (maxLabel (s.registry (generateDocumentId md5hex res.document_info)) + 1))),
      s.clock + 1⟩,
     { operation_type := OpType.update_document, document_info := res.document_info,
       old_version :=
         some (((s.registry (generateDocumentId md5hex res.document_info)).getLast
           hempty).version),
       new_version :=
         some (maxLabel (s.registry (generateDocumentId md5hex res.document_info)) + 1) })
  else
    (⟨s.registry, s.clock + 1⟩,
     { operation_type := OpType.no_change, document_info := res.document_info })

/-- Python truthiness guard `not result.success or not result.file_path`. -/
def processable (res : DownloadResult) : Bool :=
  res.success && (match res.file_path with | none => false | some p => p ≠ "")

/-- One download result as seen by `process_document_updates`: skipped (counted
failed) or processed into an operation. -/
def processResultStep (md5hex fileChecksum : String → String) (cap : Nat)
    (s : VMState) (res : DownloadResult) : VMState × Option UpdateOperation :=
  match res.file_path with
  | none => (s, none)
  | some path =>
    if res.success && path ≠ "" then
      let sp := processSingleResult md5hex fileChecksum cap s res path
      (sp.1, some sp.2)
    else (s, none)

/-- The single pass of `rollback_to_version` that makes the first version
carrying the target label current again. -/
def setCurrentFirst (target : Nat) : List DocumentVersion → List DocumentVersion
  | [] => []
  | v :: rest =>
    if v.version = target then { v with is_current := true } :: rest
    else v :: setCurrentFirst target rest

/-- Registry-entry effect of NAACVersionManager.rollback_to_version: `false`
and no change when the label is absent, otherwise flip everything to
non-current and re-mark the first version with the target label. -/
def rollbackVersions (vs : List DocumentVersion) (target : Nat) :
    List DocumentVersion × Bool :=
  if vs.any (fun v => v.version = target) then
    (setCurrentFirst target (vs.map markNotCurrent), true)
  else (vs, false)

/-- rollback_to_version lifted to the whole manager state. -/
def rollbackToVersion (s : VMState) (doc_id : String) (target : Nat) :
    VMState × Bool :=
  (⟨updateRegistry s.registry doc_id (rollbackVersions (s.registry doc_id) target).1,
    s.clock⟩,
   (rollbackVersions (s.registry doc_id) target).2)

/-- States reachable by version-manager operations from an empty registry. -/
inductive Reachable (md5hex fileChecksum : String → String) (cap : Nat) :
    VMState → Prop
  | init : Reachable md5hex fileChecksum cap ⟨fun _ => [], 0⟩
  | process (s : VMState) (res : DownloadResult) :
      Reachable md5hex fileChecksum cap s →
      Reachable md5hex fileChecksum cap (processResultStep md5hex fileChecksum cap s res).1
  | rollback (s : VMState) (d : String) (t : Nat) :
      Reachable md5hex fileChecksum cap s →
      Reachable md5hex fileChecksum cap (rollbackToVersion s d t).1

/-- Exactly one version of the entry is flagged current. -/
def SingleCurrent (vs : List DocumentVersion) : Prop :=
  vs.countP (fun v => v.is_current) = 1

/-- Inductive invariant: every nonempty registry entry has exactly one current
version, and every stored timestamp is older than the clock. -/
def Inv (s : VMState) : Prop :=
  (∀ d, s.registry d ≠ [] → SingleCurrent (s.registry d)) ∧
  (∀ d v, v ∈ s.registry d → v.timestamp < s.clock)

lemma perm_sortByTimestamp (vs : List DocumentVersion) :
    List.Perm (sortByTimestamp vs) vs :=
  List.perm_insertionSort tsLe vs

lemma sorted_sortByTimestamp (vs : List DocumentVersion) :
    List.Sorted tsLe (sortByTimestamp vs) :=
  List.sorted_insertionSort tsLe vs

lemma countP_map_markNotCurrent (vs : List DocumentVersion) :
    (vs.map markNotCurrent).countP (fun v => v.is_current) = 0 := by
  rw [List.countP_eq_zero]
  intro v hv
  rcases List.mem_map.mp hv with ⟨w, _, rfl⟩
  simp [markNotCurrent]

lemma mem_of_mem_cleanup {cap : Nat} {l : List DocumentVersion} {v : DocumentVersion}
    (h : v ∈ cleanupOldVersions cap l) : v ∈ l := by
  unfold cleanupOldVersions at h
  split at h
  · split at h
    · exact (perm_sortByTimestamp l).mem_iff.mp h
    · exact (perm_sortByTimestamp l).mem_iff.mp (List.mem_of_mem_drop h)
  · exact h

lemma countP_take_zero (cap : Nat) (l : List DocumentVersion) (now : Nat)
    (hone : l.countP (fun v => v.is_current) = 1)
    (hcur : ∀ v ∈ l, v.is_current = true → now ≤ v.timestamp)
    (hts : ∀ v ∈ l, v.is_current = false → v.timestamp < now)
    (hlen : l.length > cap) (hcap : cap ≠ 0) :
    ((sortByTimestamp l).take (l.length - cap)).countP (fun v => v.is_current) = 0 := by
  have hperm := perm_sortByTimestamp l
  have hsplit : sortByTimestamp l =
      (sortByTimestamp l).take (l.length - cap) ++ (sortByTimestamp l).drop (l.length - cap) :=
    (List.take_append_drop _ _).symm
  have hsum : ((sortByTimestamp l).take (l.length - cap)).countP (fun v => v.is_current) +
      ((sortByTimestamp l).drop (l.length - cap)).countP (fun v => v.is_current) = 1 := by
    rw [← List.countP_append, ← hsplit, hperm.countP_eq]
    exact hone
  by_contra hne
  have hpos := Nat.pos_of_ne_zero hne
  obtain ⟨v, hvmem, hvcur⟩ := List.countP_pos_iff.mp hpos
  have hdropne : (sortByTimestamp l).drop (l.length - cap) ≠ [] := by
    have hlength : ((sortByTimestamp l).drop (l.length - cap)).length = cap := by
      rw [List.length_drop, hperm.length_eq]
      omega
    intro hnil
    rw [hnil] at hlength
    simp at hlength
    omega
  obtain ⟨w, hwmem⟩ := List.exists_mem_of_ne_nil _ hdropne
  have hsorted := sorted_sortByTimestamp l
  rw [hsplit] at hsorted
  have hvw : tsLe v w :=
    (List.pairwise_append.mp hsorted).2.2 v hvmem w hwmem
  have hvl : v ∈ l := hperm.mem_iff.mp (List.mem_of_mem_take hvmem)
  have hwl : w ∈ l := hperm.mem_iff.mp (List.mem_of_mem_drop hwmem)
  cases hw : w.is_current with
  | false =>
    have h1 := hts w hwl hw
    have h2 := hcur v hvl hvcur
    unfold tsLe at hvw
    omega
  | true =>
    have hdpos : 0 < ((sortByTimestamp l).drop (l.length - cap)).countP (fun v => v.is_current) :=
      List.countP_pos_iff.mpr ⟨w, hwmem, hw⟩
    omega

lemma countP_cleanup (cap : Nat) (l : List DocumentVersion) (now : Nat)
    (hone : l.countP (fun v => v.is_current) = 1)
    (hcur : ∀ v ∈ l, v.is_current = true → now ≤ v.timestamp)
    (hts : ∀ v ∈ l, v.is_current = false → v.timestamp < now) :
    (cleanupOldVersions cap l).countP (fun v => v.is_current) = 1 := by
  have hperm := perm_sortByTimestamp l
  unfold cleanupOldVersions
  split
  case isTrue hlen =>
    split
    case isTrue hcap =>
      rw [hperm.countP_eq]
      exact hone
    case isFalse hcap =>
      have htake := countP_take_zero cap l now hone hcur hts hlen hcap
      have hsum : ((sortByTimestamp l).take (l.length - cap)).countP (fun v => v.is_current) +
          ((sortByTimestamp l).drop (l.length - cap)).countP (fun v => v.is_current) = 1 := by
        rw [← List.countP_append, List.take_append_drop, hperm.countP_eq]
        exact hone
      omega
  case isFalse hlen => exact hone

lemma current_mem_cleanup (cap : Nat) (l : List DocumentVersion) (now : Nat)
    (hone : l.countP (fun v => v.is_current) = 1)
    (hcur : ∀ v ∈ l, v.is_current = true → now ≤ v.timestamp)
    (hts : ∀ v ∈ l, v.is_current = false → v.timestamp < now)
    (c : DocumentVersion) (hcl : c ∈ l) (hc : c.is_current = true) :
    c ∈ cleanupOldVersions cap l := by
  have hperm := perm_sortByTimestamp l
  unfold cleanupOldVersions
  split
  case isTrue hlen =>
    split
    case isTrue hcap => exact hperm.mem_iff.mpr hcl
    case isFalse hcap =>
      have hmem : c ∈ sortByTimestamp l := hperm.mem_iff.mpr hcl
      have hmem2 : c ∈ (sortByTimestamp l).take (l.length - cap) ++
          (sortByTimestamp l).drop (l.length - cap) := by
        rw [List.take_append_drop]
        exact hmem
      rcases List.mem_append.mp hmem2 with hin | hin
      · exfalso
        have htake := countP_take_zero cap l now hone hcur hts hlen hcap
        have := List.countP_eq_zero.mp htake c hin
        simp [hc] at this
      · exact hin
  case isFalse hlen => exact hcl

lemma countP_setCurrentFirst (t : Nat) (l : List DocumentVersion)
    (hall : ∀ v ∈ l, v.is_current = false)
    (hex : l.any (fun v => v.version = t) = true) :
    (setCurrentFirst t l).countP (fun v => v.is_current) = 1 := by
  induction l with
  | nil => simp at hex
  | cons v rest ih =>
    unfold setCurrentFirst
    by_cases hv : v.version = t
    · have hrest : rest.countP (fun v => v.is_current) = 0 :=
        List.countP_eq_zero.mpr (fun a ha => by
          simp [hall a (List.mem_cons_of_mem _ ha)])
      simp [hv, List.countP_cons, hrest]
    · have hhead : v.is_current = false := hall v (List.mem_cons_self v rest)
      have hex' : rest.any (fun v => v.version = t) = true := by
        rcases List.any_eq_true.mp hex with ⟨a, ha, hat⟩
        rcases List.mem_cons.mp ha with rfl | ha'
        · simp at hat
          exact absurd hat hv
        · exact List.any_eq_true.mpr ⟨a, ha', hat⟩
      have := ih (fun a ha => hall a (List.mem_cons_of_mem _ ha)) hex'
      simp [hv, List.countP_cons, hhead, this]

lemma timestamp_setCurrentFirst (t : Nat) (l : List DocumentVersion)
    (v : DocumentVersion) (hv : v ∈ setCurrentFirst t l) :
    ∃ w ∈ l, v.timestamp = w.timestamp := by
  induction l with
  | nil => simp [setCurrentFirst] at hv
  | cons a rest ih =>
    unfold setCurrentFirst at hv
    by_cases ha : a.version = t
    · simp [ha] at hv
      rcases hv with rfl | hv
      · exact ⟨a, List.mem_cons_self a rest, rfl⟩
      · exact ⟨v, List.mem_cons_of_mem _ hv, rfl⟩
    · simp [ha] at hv
      rcases hv with rfl | hv
      · exact ⟨v, List.mem_cons_self v rest, rfl⟩
      · rcases ih hv with ⟨w, hw, hts⟩
        exact ⟨w, List.mem_cons_of_mem _ hw, hts⟩

lemma singleCurrent_updatedVersionList (cap : Nat) (vs : List DocumentVersion)
    (newv : DocumentVersion) (now : Nat)
    (hts : ∀ v ∈ vs, v.timestamp < now)
    (hnew_cur : newv.is_current = true) (hnew_ts : newv.timestamp = now) :
    SingleCurrent (updatedVersionList cap vs newv) := by
  unfold updatedVersionList SingleCurrent
  apply countP_cleanup cap _ now
  · rw [List.countP_append, countP_map_markNotCurrent, List.countP_cons]
    simp [hnew_cur]
  · intro v hv hvc
    rcases List.mem_append.mp hv with hin | hin
    · rcases List.mem_map.mp hin with ⟨w, _, rfl⟩
      simp [markNotCurrent] at hvc
    · simp at hin
      subst hin
      omega
  · intro v hv hvc
    rcases List.mem_append.mp hv with hin | hin
    · rcases List.mem_map.mp hin with ⟨w, hw, rfl⟩
      simpa [markNotCurrent] using hts w hw
    · simp at hin
      subst hin
      rw [hnew_cur] at hvc
      cases hvc

lemma timestamp_updatedVersionList (cap : Nat) (vs : List DocumentVersion)
    (newv : DocumentVersion) (now : Nat)
    (hts : ∀ v ∈ vs, v.timestamp < now) (hnew_ts : newv.timestamp = now)
    (v : DocumentVersion) (hv : v ∈ updatedVersionList cap vs newv) :
    v.timestamp < now + 1 := by
  have hmem := mem_of_mem_cleanup hv
  rcases List.mem_append.mp hmem with hin | hin
  · rcases List.mem_map.mp hin with ⟨w, hw, rfl⟩
    have := hts w hw
    simp [markNotCurrent]
    omega
  · simp at hin
    subst hin
    omega

lemma inv_processSingleResult (md5hex fileChecksum : String → String) (cap : Nat)
    (s : VMState) (res : DownloadResult) (path : String) (hinv : Inv s) :
    Inv (processSingleResult md5hex fileChecksum cap s res path).1 := by
  obtain ⟨hsc, hts⟩ := hinv
  unfold processSingleResult
  split
  case isTrue hempty =>
    constructor
    · intro d hd
      simp only [updateRegistry] at hd ⊢
      by_cases hdd : d = generateDocumentId md5hex res.document_info
      · simp [hdd, SingleCurrent, newVersionEntry]
      · simp only [if_neg hdd] at hd ⊢
        exact hsc d hd
    · intro d v hv
      simp only [updateRegistry] at hv
      by_cases hdd : d = generateDocumentId md5hex res.document_info
      · simp only [if_pos hdd] at hv
        simp at hv
        subst hv
        show (newVersionEntry md5hex fileChecksum s res path 10).timestamp < s.clock + 1
        simp [newVersionEntry]
      · simp only [if_neg hdd] at hv
        have := hts d v hv
        show v.timestamp < s.clock + 1
        omega
  case isFalse hempty =>
    split
    case isTrue hnewv =>
      constructor
      · intro d hd
        simp only [updateRegistry] at hd ⊢
        by_cases hdd : d = generateDocumentId md5hex res.document_info
        · simp only [if_pos hdd]
          apply singleCurrent_updatedVersionList cap _ _ s.clock
          · intro v hv
            exact hts _ v hv
          · rfl
          · rfl
        · simp only [if_neg hdd] at hd ⊢
          exact hsc d hd
      · intro d v hv
        simp only [updateRegistry] at hv
        by_cases hdd : d = generateDocumentId md5hex res.document_info
        · simp only [if_pos hdd] at hv
          show v.timestamp < s.clock + 1
          exact timestamp_updatedVersionList cap _ _ s.clock
            (fun w hw => hts _ w hw) rfl v hv
        · simp only [if_neg hdd] at hv
          have := hts d v hv
          show v.timestamp < s.clock + 1
          omega
    case isFalse hnewv =>
      constructor
      · intro d hd
        exact hsc d hd
      · intro d v hv
        have := hts d v hv
        show v.timestamp < s.clock + 1
        omega

lemma inv_processResultStep (md5hex fileChecksum : String → String) (cap : Nat)
    (s : VMState) (res : DownloadResult) (hinv : Inv s) :
    Inv (processResultStep md5hex fileChecksum cap s res).1 := by
  unfold processResultStep
  split
  · exact hinv
  · split
    · exact inv_processSingleResult md5hex fileChecksum cap s res _ hinv
    · exact hinv

lemma singleCurrent_rollback (vs : List DocumentVersion) (t : Nat)
    (hfound : vs.any (fun v => v.version = t) = true) :
    SingleCurrent (setCurrentFirst t (vs.map markNotCurrent)) := by
  apply countP_setCurrentFirst
  · intro v hv
    rcases List.mem_map.mp hv with ⟨w, _, rfl⟩
    simp [markNotCurrent]
  · rcases List.any_eq_true.mp hfound with ⟨a, ha, hat⟩
    refine List.any_eq_true.mpr ⟨markNotCurrent a, List.mem_map.mpr ⟨a, ha, rfl⟩, ?_⟩
    simpa [markNotCurrent] using hat

lemma rollbackVersions_found (vs : List DocumentVersion) (t : Nat)
    (hfound : vs.any (fun v => v.version = t) = true) :
    rollbackVersions vs t = (setCurrentFirst t (vs.map markNotCurrent), true) := by
  unfold rollbackVersions
  rw [if_pos hfound]

lemma rollbackVersions_notFound (vs : List DocumentVersion) (t : Nat)
    (hfound : ¬ vs.any (fun v => v.version = t) = true) :
    rollbackVersions vs t = (vs, false) := by
  unfold rollbackVersions
  rw [if_neg hfound]

lemma inv_rollbackToVersion (s : VMState) (d : String) (t : Nat) (hinv : Inv s) :
    Inv (rollbackToVersion s d t).1 := by
  obtain ⟨hsc, hts⟩ := hinv
  by_cases hfound : (s.registry d).any (fun v => v.version = t) = true
  · unfold rollbackToVersion
    rw [rollbackVersions_found _ _ hfound]
    constructor
    · intro x hx
      by_cases hxd : x = d
      · have hgoal : SingleCurrent (setCurrentFirst t ((s.registry d).map markNotCurrent)) :=
          singleCurrent_rollback _ t hfound
        show SingleCurrent (updateRegistry s.registry d
          (setCurrentFirst t ((s.registry d).map markNotCurrent)) x)
        unfold updateRegistry
        rw [if_pos hxd]
        exact hgoal
      · have hx' : s.registry x ≠ [] := by
          simpa [updateRegistry, hxd] using hx
        show SingleCurrent (updateRegistry s.registry d
          (setCurrentFirst t ((s.registry d).map markNotCurrent)) x)
        unfold updateRegistry
        rw [if_neg hxd]
        exact hsc x hx'
    · intro x v hv
      show v.timestamp < s.clock
      by_cases hxd : x = d
      · have hv' : v ∈ setCurrentFirst t ((s.registry d).map markNotCurrent) := by
          simpa [updateRegistry, hxd] using hv
        rcases timestamp_setCurrentFirst t _ v hv' with ⟨w, hw, hts2⟩
        rcases List.mem_map.mp hw with ⟨u, hu, rfl⟩
        have := hts d u hu
        simp only [markNotCurrent] at hts2
        omega
      · have hv' : v ∈ s.registry x := by
          simpa [updateRegistry, hxd] using hv
        exact hts x v hv'
  · unfold rollbackToVersion
    rw [rollbackVersions_notFound _ _ hfound]
    constructor
    · intro x hx
      by_cases hxd : x = d
      · have hx' : s.registry d ≠ [] := by
          simpa [updateRegistry, hxd] using hx
        show SingleCurrent (updateRegistry s.registry d (s.registry d) x)
        unfold updateRegistry
        rw [if_pos hxd]
        exact hsc d hx'
      · have hx' : s.registry x ≠ [] := by
          simpa [updateRegistry, hxd] using hx
        show SingleCurrent (updateRegistry s.registry d (s.registry d) x)
        unfold updateRegistry
        rw [if_neg hxd]
        exact hsc x hx'
    · intro x v hv
      show v.timestamp < s.clock
      by_cases hxd : x = d
      · have hv' : v ∈ s.registry d := by
          simpa [updateRegistry, hxd] using hv
        exact hts d v hv'
      · have hv' : v ∈ s.registry x := by
          simpa [updateRegistry, hxd] using hv
        exact hts x v hv'

lemma inv_of_reachable (md5hex fileChecksum : String → String) (cap : Nat)
    (s : VMState) (h : Reachable md5hex fileChecksum cap s) : Inv s := by
  induction h with
  | init =>
    constructor
    · intro d hd
      simp at hd
    · intro d v hv
      simp at hv
  | process s res _ ih => exact inv_processResultStep md5hex fileChecksum cap s res ih
  | rollback s d t _ ih => exact inv_rollbackToVersion s d t ih

lemma current_version_setCurrentFirst (t : Nat) (l : List DocumentVersion)
    (hall : ∀ v ∈ l, v.is_current = false) (v : DocumentVersion)
    (hv : v ∈ setCurrentFirst t l) (hc : v.is_current = true) : v.version = t := by
  induction l with
  | nil => simp [setCurrentFirst] at hv
  | cons a rest ih =>
    unfold setCurrentFirst at hv
    by_cases ha : a.version = t
    · simp [ha] at hv
      rcases hv with rfl | hv
      · rfl
      · have := hall v (List.mem_cons_of_mem _ hv)
        rw [this] at hc
        cases hc
    · simp [ha] at hv
      rcases hv with rfl | hv
      · have := hall v (List.mem_cons_self v rest)
        rw [this] at hc
        cases hc
      · exact ih (fun w hw => hall w (List.mem_cons_of_mem _ hw)) hv

/-- Shared sample document used by concrete witnesses. -/
def sampleDocInfo : DocumentInfo :=
  { title := "Doc", url := "u", file_type := "pdf" }

/-- Shared sample successful download whose file sits at path `p`. -/
def scenarioResult (p : String) : DownloadResult :=
  { document_info := sampleDocInfo, success := true, file_path := some p,
    file_size := some 1 }

/-- Shared sample registered version used by concrete witnesses. -/
def sampleVersion (label : Nat) (cur : Bool) : DocumentVersion :=
  { document_id := "x", version := label, file_path := "p",
    checksum := "c" ++ toString label, timestamp := label, file_size := 0,
    is_current := cur, metadata := sampleDocInfo }

/-- C1: starting from an empty registry, after any sequence of completed
version-manager operations (processing a new document, processing an update, a
no-change result, or rollback_to_version), every documentID with at least one
registered version has exactly one DocumentVersion with is_current = true. -/
theorem c1_single_current_invariant (md5hex fileChecksum : String → String)
    (cap : Nat) (s : VMState) (h : Reachable md5hex fileChecksum cap s)
    (d : String) (hne : s.registry d ≠ []) : SingleCurrent (s.registry d) :=
  (inv_of_reachable md5hex fileChecksum cap s h).1 d hne

/-- Witness for C1 at a concrete reachable state: one processed download,
whose registry entry has exactly one current version. -/
theorem c1_single_current_invariant_witness :
    SingleCurrent (((processResultStep (fun x => x) (fun p => p) 5
      ⟨fun _ => [], 0⟩ (scenarioResult "c0")).1).registry "naac_u") :=
  c1_single_current_invariant (fun x => x) (fun p => p) 5 _
    (Reachable.process _ (scenarioResult "c0") Reachable.init) "naac_u"
    (by decide)

/-- C10: rollback_to_version returns false and leaves every registry entry
unchanged (no is_current flag modified) when no version of the document
carries the target label; when one does, it returns true and afterwards the
first version carrying that label is the unique current one. -/
theorem c10_rollback_to_version (s : VMState) (d : String) (t : Nat) :
    (¬ (∃ v ∈ s.registry d, v.version = t) →
      (rollbackToVersion s d t).2 = false ∧
      ∀ x, (rollbackToVersion s d t).1.registry x = s.registry x) ∧
    ((∃ v ∈ s.registry d, v.version = t) →
      (rollbackToVersion s d t).2 = true ∧
      SingleCurrent ((rollbackToVersion s d t).1.registry d) ∧
      ∀ v ∈ (rollbackToVersion s d t).1.registry d,
        v.is_current = true → v.version = t) := by
  constructor
  · intro hnone
    have hfound : ¬ (s.registry d).any (fun v => v.version = t) = true := by
      intro hany
      exact hnone (by simpa using List.any_eq_true.mp hany)
    unfold rollbackToVersion
    rw [rollbackVersions_notFound _ _ hfound]
    refine ⟨rfl, ?_⟩
    intro x
    show updateRegistry s.registry d (s.registry d) x = s.registry x
    unfold updateRegistry
    by_cases hxd : x = d
    · rw [if_pos hxd, hxd]
    · rw [if_neg hxd]
  · intro hsome
    have hfound : (s.registry d).any (fun v => v.version = t) = true := by
      rcases hsome with ⟨v, hv, hvt⟩
      exact List.any_eq_true.mpr ⟨v, hv, by simpa using hvt⟩
    unfold rollbackToVersion
    rw [rollbackVersions_found _ _ hfound]
    refine ⟨rfl, ?_, ?_⟩
    · show SingleCurrent (updateRegistry s.registry d
        (setCurrentFirst t ((s.registry d).map markNotCurrent)) d)
      unfold updateRegistry
      rw [if_pos rfl]
      exact singleCurrent_rollback _ t hfound
    · intro v hv hvc
      have hv' : v ∈ setCurrentFirst t ((s.registry d).map markNotCurrent) := by
        simpa [updateRegistry] using hv
      refine current_version_setCurrentFirst t _ ?_ v hv' hvc
      intro w hw
      rcases List.mem_map.mp hw with ⟨u, _, rfl⟩
      simp [markNotCurrent]

/-- Witness for C10 at a concrete registry with versions 1.0 and 1.1:
rolling back to 1.0 succeeds and makes it the unique current version. -/
theorem c10_rollback_to_version_witness :
    (rollbackToVersion ⟨updateRegistry (fun _ => []) "x"
        [sampleVersion 10 false, sampleVersion 11 true], 20⟩ "x" 10).2 = true ∧
    SingleCurrent ((rollbackToVersion ⟨updateRegistry (fun _ => []) "x"
        [sampleVersion 10 false, sampleVersion 11 true], 20⟩ "x" 10).1.registry "x") ∧
    ∀ v ∈ (rollbackToVersion ⟨updateRegistry (fun _ => []) "x"
        [sampleVersion 10 false, sampleVersion 11 true], 20⟩ "x" 10).1.registry "x",
      v.is_current = true → v.version = 10 :=
  (c10_rollback_to_version _ "x" 10).2 ⟨sampleVersion 10 false, by decide, rfl⟩

lemma hyps_updatedList (vs : List DocumentVersion) (newv : DocumentVersion)
    (now : Nat) (hts : ∀ v ∈ vs, v.timestamp < now)
    (hnew_cur : newv.is_current = true) (hnew_ts : newv.timestamp = now) :
    (vs.map markNotCurrent ++ [newv]).countP (fun v => v.is_current) = 1 ∧
    (∀ v ∈ vs.map markNotCurrent ++ [newv], v.is_current = true → now ≤ v.timestamp) ∧
    (∀ v ∈ vs.map markNotCurrent ++ [newv], v.is_current = false → v.timestamp < now) := by
  refine ⟨?_, ?_, ?_⟩
  · rw [List.countP_append, countP_map_markNotCurrent, List.countP_cons]
    simp [hnew_cur]
  · intro v hv hvc
    rcases List.mem_append.mp hv with hin | hin
    · rcases List.mem_map.mp hin with ⟨w, _, rfl⟩
      simp [markNotCurrent] at hvc
    · simp at hin
      subst hin
      omega
  · intro v hv hvc
    rcases List.mem_append.mp hv with hin | hin
    · rcases List.mem_map.mp hin with ⟨w, hw, rfl⟩
      simpa [markNotCurrent] using hts w hw
    · simp at hin
      subst hin
      rw [hnew_cur] at hvc
      cases hvc

/-- C2: when registering a new version pushes a document's version count above
the cap, the retention cleanup leaves exactly `cap` versions, the removed ones
are the oldest by creation timestamp and all non-current, and the current
(newly registered) version is never among the pruned ones. -/
theorem c2_retention_cleanup (cap : Nat) (vs : List DocumentVersion)
    (newv : DocumentVersion) (now : Nat) (hcap : 1 ≤ cap)
    (hts : ∀ v ∈ vs, v.timestamp < now)
    (hnew_cur : newv.is_current = true) (hnew_ts : newv.timestamp = now)
    (hover : vs.length + 1 > cap) :
    (updatedVersionList cap vs newv).length = cap ∧
    newv ∈ updatedVersionList cap vs newv ∧
    (∃ removed,
      removed ++ updatedVersionList cap vs newv =
        sortByTimestamp (vs.map markNotCurrent ++ [newv]) ∧
      removed.length = vs.length + 1 - cap ∧
      (∀ r ∈ removed, r.is_current = false) ∧
      (∀ r ∈ removed, ∀ k ∈ updatedVersionList cap vs newv,
        r.timestamp ≤ k.timestamp)) := by
  obtain ⟨hone, hcur, hts'⟩ := hyps_updatedList vs newv now hts hnew_cur hnew_ts
  have hlen : (vs.map markNotCurrent ++ [newv]).length = vs.length + 1 := by
    simp
  have hgt : (vs.map markNotCurrent ++ [newv]).length > cap := by omega
  have hcap0 : cap ≠ 0 := by omega
  have hperm := perm_sortByTimestamp (vs.map markNotCurrent ++ [newv])
  have hkeep : updatedVersionList cap vs newv =
      (sortByTimestamp (vs.map markNotCurrent ++ [newv])).drop
        ((vs.map markNotCurrent ++ [newv]).length - cap) := by
    unfold updatedVersionList cleanupOldVersions
    rw [if_pos hgt, if_neg hcap0]
  have htake := countP_take_zero cap (vs.map markNotCurrent ++ [newv]) now
    hone hcur hts' hgt hcap0
  refine ⟨?_, ?_, ?_⟩
  · rw [hkeep, List.length_drop, hperm.length_eq, hlen]
    omega
  · exact current_mem_cleanup cap _ now hone hcur hts' newv
      (List.mem_append.mpr (Or.inr (List.mem_singleton.mpr rfl))) hnew_cur
  · refine ⟨(sortByTimestamp (vs.map markNotCurrent ++ [newv])).take
      ((vs.map markNotCurrent ++ [newv]).length - cap), ?_, ?_, ?_, ?_⟩
    · rw [hkeep, List.take_append_drop]
    · rw [List.length_take, hperm.length_eq, hlen]
      omega
    · intro r hr
      have := List.countP_eq_zero.mp htake r hr
      simpa using this
    · intro r hr k hk
      rw [hkeep] at hk
      have hsorted := sorted_sortByTimestamp (vs.map markNotCurrent ++ [newv])
      rw [← List.take_append_drop ((vs.map markNotCurrent ++ [newv]).length - cap)
        (sortByTimestamp (vs.map markNotCurrent ++ [newv]))] at hsorted
      exact (List.pairwise_append.mp hsorted).2.2 r hr k hk

/-- Witness for C2: a 6th version under a cap of 5 leaves exactly 5 versions,
the current one among them and the oldest pruned. -/
theorem c2_retention_cleanup_witness :
    (updatedVersionList 5
      [sampleVersion 10 false, sampleVersion 11 false, sampleVersion 12 false,
       sampleVersion 13 false, sampleVersion 14 true]
      (sampleVersion 15 true)).length = 5 ∧
    sampleVersion 15 true ∈ updatedVersionList 5
      [sampleVersion 10 false, sampleVersion 11 false, sampleVersion 12 false,
       sampleVersion 13 false, sampleVersion 14 true]
      (sampleVersion 15 true) := by
  have h := c2_retention_cleanup 5
    [sampleVersion 10 false, sampleVersion 11 false, sampleVersion 12 false,
     sampleVersion 13 false, sampleVersion 14 true]
    (sampleVersion 15 true) 15 (by decide) (by decide) (by decide) (by decide)
    (by decide)
  exact ⟨h.1, h.2.1⟩

/-- State after one new document and three genuine updates of the same url,
with the file checksum modelled as the path itself and paths c0..c3. -/
def scenarioState : VMState :=
  [scenarioResult "c0", scenarioResult "c1", scenarioResult "c2",
   scenarioResult "c3"].foldl
    (fun s r => (processResultStep (fun x => x) (fun p => p) 5 s r).1)
    ⟨fun _ => [], 0⟩

/-- C3: a genuinely changed document (checksum matching no existing version)
gets the label `max(existing labels) + 0.1` (one tenth more than the numeric
maximum, rendered to one decimal by `formatLabel`); consequently a document
created and then updated three times carries exactly the labels 1.0, 1.1, 1.2,
1.3, pairwise strictly increasing as numbers. -/
theorem c3_next_version_label (md5hex fileChecksum : String → String)
    (cap : Nat) (s : VMState) (res : DownloadResult) (path : String)
    (hne : s.registry (generateDocumentId md5hex res.document_info) ≠ [])
    (hnv : isNewVersion (s.registry (generateDocumentId md5hex res.document_info))
      (fileChecksum path) = true) :
    ((processSingleResult md5hex fileChecksum cap s res path).2.new_version =
      some (maxLabel (s.registry (generateDocumentId md5hex res.document_info)) + 1)) ∧
    ((scenarioState.registry "naac_u").map (fun v => formatLabel v.version) =
      ["1.0", "1.1", "1.2", "1.3"]) ∧
    List.Pairwise (fun a b => a < b)
      ((scenarioState.registry "naac_u").map (fun v => v.version)) := by
  refine ⟨?_, by decide, by decide⟩
  unfold processSingleResult
  rw [dif_neg hne, if_pos hnv]

/-- Witness for C3: the second processed download of the scenario gets the
label one tenth above the maximum of the existing labels. -/
theorem c3_next_version_label_witness :
    (processSingleResult (fun x => x) (fun p => p) 5
      (processResultStep (fun x => x) (fun p => p) 5 ⟨fun _ => [], 0⟩
        (scenarioResult "c0")).1 (scenarioResult "c1") "c1").2.new_version =
      some (maxLabel ((processResultStep (fun x => x) (fun p => p) 5
        ⟨fun _ => [], 0⟩ (scenarioResult "c0")).1.registry
          (generateDocumentId (fun x => x)
            (scenarioResult "c1").document_info)) + 1) :=
  (c3_next_version_label (fun x => x) (fun p => p) 5 _ (scenarioResult "c1")
    "c1" (by decide) (by decide)).1

/-- Knowledge-base update record appended to the report. -/
structure KBUpdate where
  document_id : String
  operation_type : OpType
  version : Nat
deriving Repr, DecidableEq

/-- NAACVersionManager._get_current_version: first flagged version, falling
back to the latest by timestamp. -/
def getCurrentVersion (vs : List DocumentVersion) : Option DocumentVersion :=
  match vs.find? (fun v => v.is_current) with
  | some v => some v
  | none => (sortByTimestamp vs).getLast?

/-- NAACVersionManager._update_knowledge_base: ingest the current version's
file; `none` when there is no current version, when ingestion fails, or when
the operation did not complete.  `ingestOk` stands for the external ingestion
pipeline judged by file path. -/
def updateKnowledgeBase (md5hex : String → String) (ingestOk : String → Bool)
    (reg : String → List DocumentVersion) (op : UpdateOperation) :
    Option KBUpdate :=
  if op.status = "completed" then
    match getCurrentVersion (reg (generateDocumentId md5hex op.document_info)) with
    | none => none
    | some cur =>
      if ingestOk cur.file_path then
        some { document_id := generateDocumentId md5hex op.document_info,
               operation_type := op.operation_type,
               version := op.new_version.getD 10 }
      else none
  else none

/-- Aggregate report of process_document_updates. -/
structure UpdateReport where
  total_documents : Nat
  new_documents : Nat
  updated_documents : Nat
  failed_operations : Nat
  operations : List UpdateOperation
  knowledge_base_updates : List KBUpdate
deriving Repr, DecidableEq

/-- Count bookkeeping after appending one completed/failed operation. -/
def recordOp (rep : UpdateReport) (op : UpdateOperation) : UpdateReport :=
  if op.status = "completed" then
    match op.operation_type with
    | OpType.new_document =>
        { rep with operations := rep.operations ++ [op],
                   new_documents := rep.new_documents + 1 }
    | OpType.update_document =>
        { rep with operations := rep.operations ++ [op],
                   updated_documents := rep.updated_documents + 1 }
    | OpType.no_change => { rep with operations := rep.operations ++ [op] }
  else
    { rep with operations := rep.operations ++ [op],
               failed_operations := rep.failed_operations + 1 }

/-- Knowledge-base bookkeeping for one completed operation (skipped when the
store or pipeline is absent). -/
def recordKB (md5hex : String → String) (ingestOk : String → Bool)
    (kbAvail : Bool) (reg : String → List DocumentVersion)
    (op : UpdateOperation) (rep : UpdateReport) : UpdateReport :=
  if kbAvail ∧ op.status = "completed" then
    match updateKnowledgeBase md5hex ingestOk reg op with
    | some k =>
        { rep with knowledge_base_updates := rep.knowledge_base_updates ++ [k] }
    | none => rep
  else rep

/-- Path recorded in a processable result. -/
def pathOf (res : DownloadResult) : String := res.file_path.getD ""

/-- Loop body of process_document_updates: unsuccessful results count as
failed operations; the rest are processed, recorded, and offered to the
knowledge base. -/
def pduStep (md5hex fileChecksum : String → String) (ingestOk : String → Bool)
    (kbAvail : Bool) (cap : Nat) (acc : VMState × UpdateReport)
    (res : DownloadResult) : VMState × UpdateReport :=
  if processable res then
    ((processSingleResult md5hex fileChecksum cap acc.1 res (pathOf res)).1,
     recordKB md5hex ingestOk kbAvail
       (processSingleResult md5hex fileChecksum cap acc.1 res (pathOf res)).1.registry
       (processSingleResult md5hex fileChecksum cap acc.1 res (pathOf res)).2
       (recordOp acc.2
         (processSingleResult md5hex fileChecksum cap acc.1 res (pathOf res)).2))
  else (acc.1, { acc.2 with failed_operations := acc.2.failed_operations + 1 })

/-- NAACVersionManager.process_document_updates over a batch of download
results. -/
def processDocumentUpdates (md5hex fileChecksum : String → String)
    (ingestOk : String → Bool) (kbAvail : Bool) (cap : Nat) (s : VMState)
    (results : List DownloadResult) : VMState × UpdateReport :=
  results.foldl (pduStep md5hex fileChecksum ingestOk kbAvail cap)
    (s, { total_documents := results.length, new_documents := 0,
          updated_documents := 0, failed_operations := 0, operations := [],
          knowledge_base_updates := [] })

/-- Everything in the report except the knowledge-base update list. -/
def reportCore (rep : UpdateReport) : Nat × Nat × Nat × Nat × List UpdateOperation :=
  (rep.total_documents, rep.new_documents, rep.updated_documents,
   rep.failed_operations, rep.operations)

lemma status_processSingleResult (md5hex fileChecksum : String → String)
    (cap : Nat) (s : VMState) (res : DownloadResult) (path : String) :
    (processSingleResult md5hex fileChecksum cap s res path).2.status =
      "completed" := by
  unfold processSingleResult
  split
  · rfl
  · split <;> rfl

lemma kb_recordOp (rep : UpdateReport) (op : UpdateOperation) :
    (recordOp rep op).knowledge_base_updates = rep.knowledge_base_updates := by
  unfold recordOp
  split
  · cases op.operation_type <;> rfl
  · rfl

lemma reportCore_recordKB (md5hex : String → String) (ingestOk : String → Bool)
    (kbAvail : Bool) (reg : String → List DocumentVersion)
    (op : UpdateOperation) (rep : UpdateReport) :
    reportCore (recordKB md5hex ingestOk kbAvail reg op rep) = reportCore rep := by
  unfold recordKB
  split
  · split <;> rfl
  · rfl

lemma reportCore_recordOp (rep rep' : UpdateReport) (op : UpdateOperation)
    (h : reportCore rep = reportCore rep') :
    reportCore (recordOp rep op) = reportCore (recordOp rep' op) := by
  simp only [reportCore, Prod.mk.injEq] at h
  obtain ⟨h1, h2, h3, h4, h5⟩ := h
  unfold recordOp
  split
  · cases op.operation_type <;> simp [reportCore, h1, h2, h3, h4, h5]
  · simp [reportCore, h1, h2, h3, h4, h5]

lemma failed_recordOp_completed (rep : UpdateReport) (op : UpdateOperation)
    (h : op.status = "completed") :
    (recordOp rep op).failed_operations = rep.failed_operations := by
  unfold recordOp
  rw [if_pos h]
  cases op.operation_type <;> rfl

lemma failed_recordKB (md5hex : String → String) (ingestOk : String → Bool)
    (kbAvail : Bool) (reg : String → List DocumentVersion)
    (op : UpdateOperation) (rep : UpdateReport) :
    (recordKB md5hex ingestOk kbAvail reg op rep).failed_operations =
      rep.failed_operations := by
  have := reportCore_recordKB md5hex ingestOk kbAvail reg op rep
  simp only [reportCore, Prod.mk.injEq] at this
  exact this.2.2.2.1

lemma ops_recordOp (rep : UpdateReport) (op : UpdateOperation) :
    (recordOp rep op).operations = rep.operations ++ [op] := by
  unfold recordOp
  split
  · cases op.operation_type <;> rfl
  · rfl

lemma ops_recordKB (md5hex : String → String) (ingestOk : String → Bool)
    (kbAvail : Bool) (reg : String → List DocumentVersion)
    (op : UpdateOperation) (rep : UpdateReport) :
    (recordKB md5hex ingestOk kbAvail reg op rep).operations = rep.operations := by
  have := reportCore_recordKB md5hex ingestOk kbAvail reg op rep
  simp only [reportCore, Prod.mk.injEq] at this
  exact this.2.2.2.2

lemma pdu_failed_aux (md5hex fileChecksum : String → String)
    (ingestOk : String → Bool) (kbAvail : Bool) (cap : Nat)
    (rs : List DownloadResult) :
    ∀ acc : VMState × UpdateReport,
      ((rs.foldl (pduStep md5hex fileChecksum ingestOk kbAvail cap) acc).2).failed_operations =
        acc.2.failed_operations + rs.countP (fun r => !(processable r)) := by
  induction rs with
  | nil => intro acc; simp
  | cons r rs ih =>
    intro acc
    rw [List.foldl_cons, ih, List.countP_cons]
    have hstep : (pduStep md5hex fileChecksum ingestOk kbAvail cap acc r).2.failed_operations =
        acc.2.failed_operations + (if processable r then 0 else 1) := by
      unfold pduStep
      split
      case isTrue hp =>
        rw [failed_recordKB, failed_recordOp_completed _ _
          (status_processSingleResult md5hex fileChecksum cap acc.1 r (pathOf r))]
        simp [hp]
      case isFalse hp => simp [hp]
    rw [hstep]
    by_cases hp : processable r <;> simp [hp] <;> omega

lemma pdu_ops_aux (md5hex fileChecksum : String → String)
    (ingestOk : String → Bool) (kbAvail : Bool) (cap : Nat)
    (rs : List DownloadResult) :
    ∀ acc : VMState × UpdateReport,
      ((rs.foldl (pduStep md5hex fileChecksum ingestOk kbAvail cap) acc).2).operations.length =
        acc.2.operations.length + rs.countP processable := by
  induction rs with
  | nil => intro acc; simp
  | cons r rs ih =>
    intro acc
    rw [List.foldl_cons, ih, List.countP_cons]
    have hstep : (pduStep md5hex fileChecksum ingestOk kbAvail cap acc r).2.operations.length =
        acc.2.operations.length + (if processable r then 1 else 0) := by
      unfold pduStep
      split
      case isTrue hp =>
        rw [ops_recordKB, ops_recordOp]
        simp [hp]
      case isFalse hp => simp [hp]
    rw [hstep]
    by_cases hp : processable r <;> simp [hp] <;> omega

lemma updateKnowledgeBase_mono (md5hex : String → String)
    (ingestOk ingestOk' : String → Bool)
    (hio : ∀ p, ingestOk p = true → ingestOk' p = true)
    (reg : String → List DocumentVersion) (op : UpdateOperation)
    (k : KBUpdate) (h : updateKnowledgeBase md5hex ingestOk reg op = some k) :
    updateKnowledgeBase md5hex ingestOk' reg op = some k := by
  unfold updateKnowledgeBase at h ⊢
  split at h
  case isTrue hst =>
    rw [if_pos hst]
    split at h
    case h_1 hcur => cases h
    case h_2 cur hcur =>
      split at h
      case isTrue hok => rw [if_pos (hio _ hok)]; exact h
      case isFalse hok => cases h
  case isFalse hst => cases h

lemma pdu_core_aux (md5hex fileChecksum : String → String)
    (ingestOk ingestOk' : String → Bool) (kbAvail : Bool) (cap : Nat)
    (rs : List DownloadResult) :
    ∀ acc acc' : VMState × UpdateReport, acc.1 = acc'.1 →
      reportCore acc.2 = reportCore acc'.2 →
      (rs.foldl (pduStep md5hex fileChecksum ingestOk kbAvail cap) acc).1 =
        (rs.foldl (pduStep md5hex fileChecksum ingestOk' kbAvail cap) acc').1 ∧
      reportCore (rs.foldl (pduStep md5hex fileChecksum ingestOk kbAvail cap) acc).2 =
        reportCore (rs.foldl (pduStep md5hex fileChecksum ingestOk' kbAvail cap) acc').2 := by
  induction rs with
  | nil => intro acc acc' h1 h2; exact ⟨h1, h2⟩
  | cons r rs ih =>
    intro acc acc' h1 h2
    rw [List.foldl_cons, List.foldl_cons]
    apply ih
    · unfold pduStep
      split
      · rw [h1]
      · exact h1
    · unfold pduStep
      split
      · rw [h1]
        rw [reportCore_recordKB, reportCore_recordKB]
        exact reportCore_recordOp _ _ _ h2
      · simp only [reportCore, Prod.mk.injEq] at h2 ⊢
        obtain ⟨g1, g2, g3, g4, g5⟩ := h2
        exact ⟨g1, g2, g3, by rw [g4], g5⟩

lemma kb_recordKB_eq (md5hex : String → String) (ingestOk : String → Bool)
    (kbAvail : Bool) (reg : String → List DocumentVersion)
    (op : UpdateOperation) (rep : UpdateReport) :
    (recordKB md5hex ingestOk kbAvail reg op rep).knowledge_base_updates =
      rep.knowledge_base_updates ++
        (if kbAvail ∧ op.status = "completed" then
          (updateKnowledgeBase md5hex ingestOk reg op).toList
        else []) := by
  unfold recordKB
  split
  case isTrue hav =>
    cases updateKnowledgeBase md5hex ingestOk reg op <;> simp
  case isFalse hav =>
    simp

lemma pdu_kb_aux (md5hex fileChecksum : String → String)
    (ingestOk ingestOk' : String → Bool)
    (hio : ∀ p, ingestOk p = true → ingestOk' p = true)
    (kbAvail : Bool) (cap : Nat) (rs : List DownloadResult) :
    ∀ acc acc' : VMState × UpdateReport, acc.1 = acc'.1 →
      reportCore acc.2 = reportCore acc'.2 →
      List.Sublist acc.2.knowledge_base_updates acc'.2.knowledge_base_updates →
      List.Sublist
        (rs.foldl (pduStep md5hex fileChecksum ingestOk kbAvail cap) acc).2.knowledge_base_updates
        (rs.foldl (pduStep md5hex fileChecksum ingestOk' kbAvail cap) acc').2.knowledge_base_updates := by
  induction rs with
  | nil => intro acc acc' _ _ h3; exact h3
  | cons r rs ih =>
    intro acc acc' h1 h2 h3
    rw [List.foldl_cons, List.foldl_cons]
    apply ih
    · unfold pduStep
      split
      · rw [h1]
      · exact h1
    · unfold pduStep
      split
      · rw [h1]
        rw [reportCore_recordKB, reportCore_recordKB]
        exact reportCore_recordOp _ _ _ h2
      · simp only [reportCore, Prod.mk.injEq] at h2 ⊢
        obtain ⟨g1, g2, g3, g4, g5⟩ := h2
        exact ⟨g1, g2, g3, by rw [g4], g5⟩
    · unfold pduStep
      split
      case isTrue hp =>
        rw [h1]
        show List.Sublist
          (recordKB md5hex ingestOk kbAvail
            (processSingleResult md5hex fileChecksum cap acc'.1 r (pathOf r)).1.registry
            (processSingleResult md5hex fileChecksum cap acc'.1 r (pathOf r)).2
            (recordOp acc.2
              (processSingleResult md5hex fileChecksum cap acc'.1 r (pathOf r)).2)).knowledge_base_updates
          (recordKB md5hex ingestOk' kbAvail
            (processSingleResult md5hex fileChecksum cap acc'.1 r (pathOf r)).1.registry
            (processSingleResult md5hex fileChecksum cap acc'.1 r (pathOf r)).2
            (recordOp acc'.2
              (processSingleResult md5hex fileChecksum cap acc'.1 r (pathOf r)).2)).knowledge_base_updates
        rw [kb_recordKB_eq, kb_recordKB_eq, kb_recordOp, kb_recordOp]
        apply List.Sublist.append h3
        split
        case isTrue hav =>
          cases hu : updateKnowledgeBase md5hex ingestOk
            (processSingleResult md5hex fileChecksum cap acc'.1 r (pathOf r)).1.registry
            (processSingleResult md5hex fileChecksum cap acc'.1 r (pathOf r)).2 with
          | none => simp
          | some k =>
            rw [updateKnowledgeBase_mono md5hex ingestOk ingestOk' hio _ _ k hu]
        case isFalse hav => simp
      case isFalse hp => exact h3

/-- C5 (amended): a knowledge-base ingestion failure is not recorded as a
failed operation.  The failed count covers exactly the unsuccessful downloads,
every processable result still yields an operation (the batch is never
aborted), all counts and operations are the same as when every ingestion
succeeds, and only the knowledge_base_updates list shrinks (ingestion-failed
documents simply lose their entry). -/
theorem c5_ingestion_failure_not_failed_operation
    (md5hex fileChecksum : String → String) (ingestOk : String → Bool)
    (kbAvail : Bool) (cap : Nat) (s : VMState) (rs : List DownloadResult) :
    (processDocumentUpdates md5hex fileChecksum ingestOk kbAvail cap s rs).2.failed_operations =
      rs.countP (fun r => !(processable r)) ∧
    (processDocumentUpdates md5hex fileChecksum ingestOk kbAvail cap s rs).2.operations.length =
      rs.countP processable ∧
    reportCore (processDocumentUpdates md5hex fileChecksum ingestOk kbAvail cap s rs).2 =
      reportCore (processDocumentUpdates md5hex fileChecksum (fun _ => true) kbAvail cap s rs).2 ∧
    List.Sublist
      (processDocumentUpdates md5hex fileChecksum ingestOk kbAvail cap s rs).2.knowledge_base_updates
      (processDocumentUpdates md5hex fileChecksum (fun _ => true) kbAvail cap s rs).2.knowledge_base_updates := by
  refine ⟨?_, ?_, ?_, ?_⟩
  · rw [processDocumentUpdates, pdu_failed_aux]
    simp
  · rw [processDocumentUpdates, pdu_ops_aux]
    simp
  · exact (pdu_core_aux md5hex fileChecksum ingestOk (fun _ => true) kbAvail cap
      rs _ _ rfl rfl).2
  · exact pdu_kb_aux md5hex fileChecksum ingestOk (fun _ => true)
      (fun _ _ => rfl) kbAvail cap rs _ _ rfl rfl (List.Sublist.refl _)

/-- Counterexample to C5 as stated: one successful download whose ingestion
fails is still counted as a new document, the failed count stays 0, and only
the knowledge-base update entry is missing. -/
theorem c5_counterexample :
    (processDocumentUpdates (fun x => x) (fun p => p) (fun _ => false) true 5
      ⟨fun _ => [], 0⟩ [scenarioResult "c0"]).2.failed_operations = 0 ∧
    (processDocumentUpdates (fun x => x) (fun p => p) (fun _ => false) true 5
      ⟨fun _ => [], 0⟩ [scenarioResult "c0"]).2.new_documents = 1 ∧
    (processDocumentUpdates (fun x => x) (fun p => p) (fun _ => false) true 5
      ⟨fun _ => [], 0⟩ [scenarioResult "c0"]).2.knowledge_base_updates = [] := by
  refine ⟨?_, ?_, ?_⟩ <;> decide

/-- Characters replaced by underscores in _sanitize_filename. -/
def invalidChars : List Char := ['<', '>', ':', '"', '/', '\\', '|', '?', '*']

/-- Strip of leading and trailing spaces and dots (`filename.strip(\x27 .\x27)`). -/
def stripSpaceDot (s : List Char) : List Char :=
  ((s.dropWhile (fun c => c = ' ' ∨ c = '.')).reverse.dropWhile
    (fun c => c = ' ' ∨ c = '.')).reverse

/-- NAACDocumentDownloader._sanitize_filename; `now` stands for the timestamp
used by the empty-name fallback. -/
def sanitizeFilename (now : String) (filename : String) : String :=
  if (stripSpaceDot (((filename.toList.map
      (fun c => if invalidChars.contains c then '_' else c)).take 200))) = [] then
    "naac_document_" ++ now
  else
    (stripSpaceDot (((filename.toList.map
      (fun c => if invalidChars.contains c then '_' else c)).take 200))).asString

/-- NAACDocumentDownloader._get_document_path: sanitized title, extension
appended when missing, optional criterion folder. -/
def getDocumentPath (download_dir now : String) (doc : DocumentInfo)
    (organize_by_criterion : Bool) : String :=
  if organize_by_criterion then
    match doc.criterion with
    | some c =>
      if c ≠ "" then
        download_dir ++ "/criterion_" ++ c ++ "/" ++
          (if ¬ (sanitizeFilename now doc.title).endsWith ("." ++ doc.file_type) then
            sanitizeFilename now doc.title ++ "." ++ doc.file_type
          else sanitizeFilename now doc.title)
      else
        download_dir ++ "/" ++
          (if ¬ (sanitizeFilename now doc.title).endsWith ("." ++ doc.file_type) then
            sanitizeFilename now doc.title ++ "." ++ doc.file_type
          else sanitizeFilename now doc.title)
    | none =>
      download_dir ++ "/" ++
        (if ¬ (sanitizeFilename now doc.title).endsWith ("." ++ doc.file_type) then
          sanitizeFilename now doc.title ++ "." ++ doc.file_type
        else sanitizeFilename now doc.title)
  else
    download_dir ++ "/" ++
      (if ¬ (sanitizeFilename now doc.title).endsWith ("." ++ doc.file_type) then
        sanitizeFilename now doc.title ++ "." ++ doc.file_type
      else sanitizeFilename now doc.title)

/-- External world seen by the downloader: which paths exist on disk, their
sizes, and what fetching a url yields (byte count and checksum, or an
exception message). -/
structure DownloadEnv where
  fileExists : String → Bool
  fileSize : String → Nat
  fetch : String → Except String (Nat × String)

/-- NAACDocumentDownloader._download_single_document.  Besides the outcome it
reports which documents it actually fetched over the network (empty for the
existing-file skip branch). -/
def downloadSingleDocument (env : DownloadEnv) (download_dir now : String)
    (doc : DocumentInfo) (overwrite organize_by_criterion : Bool) :
    DownloadResult × List DocumentInfo :=
  if env.fileExists (getDocumentPath download_dir now doc organize_by_criterion)
      ∧ ¬ overwrite then
    ({ document_info := doc, success := true,
       file_path := some (getDocumentPath download_dir now doc organize_by_criterion),
       file_size := some (env.fileSize
         (getDocumentPath download_dir now doc organize_by_criterion)) }, [])
  else
    match env.fetch doc.url with
    | Except.ok r =>
      ({ document_info := doc, success := true,
         file_path := some (getDocumentPath download_dir now doc organize_by_criterion),
         file_size := some r.1, checksum := some r.2 }, [doc])
    | Except.error e =>
      ({ document_info := doc, success := false,
         error_message := some e }, [doc])

/-- The pre-pool filter of download_documents: with overwrite = false,
documents whose target path already exists are dropped from the work list. -/
def documentsToDownload (env : DownloadEnv) (download_dir now : String)
    (documents : List DocumentInfo) (overwrite organize_by_criterion : Bool) :
    List DocumentInfo :=
  if ¬ overwrite then
    documents.filter (fun doc =>
      ¬ env.fileExists (getDocumentPath download_dir now doc organize_by_criterion))
  else documents

/-- NAACDocumentDownloader.download_documents: outcomes for the filtered work
list, plus the collection of documents fetched over the network. -/
def downloadDocuments (env : DownloadEnv) (download_dir now : String)
    (documents : List DocumentInfo) (overwrite organize_by_criterion : Bool) :
    List DownloadResult × List DocumentInfo :=
  ((documentsToDownload env download_dir now documents overwrite organize_by_criterion).map
    (fun doc => (downloadSingleDocument env download_dir now doc overwrite
      organize_by_criterion).1),
   ((documentsToDownload env download_dir now documents overwrite organize_by_criterion).map
    (fun doc => (downloadSingleDocument env download_dir now doc overwrite
      organize_by_criterion).2)).join)

lemma docInfo_downloadSingleDocument (env : DownloadEnv) (download_dir now : String)
    (doc : DocumentInfo) (overwrite organize : Bool) :
    (downloadSingleDocument env download_dir now doc overwrite organize).1.document_info
      = doc := by
  unfold downloadSingleDocument
  split
  · rfl
  · cases env.fetch doc.url <;> rfl

lemma fetched_downloadSingleDocument (env : DownloadEnv) (download_dir now : String)
    (doc d : DocumentInfo) (overwrite organize : Bool)
    (h : d ∈ (downloadSingleDocument env download_dir now doc overwrite organize).2) :
    d = doc := by
  unfold downloadSingleDocument at h
  split at h
  · cases h
  · rcases hfe : env.fetch doc.url with e | r
    · simp only [hfe] at h
      simpa using h
    · simp only [hfe] at h
      simpa using h

/-- C4 (amended): with overwrite = false, a document whose target path already
exists on disk is filtered out of the work list before the download pool: no
network fetch is performed for it, but contrary to the claim no DownloadOutcome
for it appears in the returned result list either.  The successful
no-fetch outcome with the existing path and size exists only in
_download_single_document's own skip branch, which download_documents never
reaches for such a document. -/
theorem c4_skip_existing_no_outcome (env : DownloadEnv) (download_dir now : String)
    (documents : List DocumentInfo) (organize : Bool) (doc : DocumentInfo)
    (hex : env.fileExists (getDocumentPath download_dir now doc organize) = true) :
    (∀ r ∈ (downloadDocuments env download_dir now documents false organize).1,
      r.document_info ≠ doc) ∧
    doc ∉ (downloadDocuments env download_dir now documents false organize).2 ∧
    (downloadSingleDocument env download_dir now doc false organize).1.success = true ∧
    (downloadSingleDocument env download_dir now doc false organize).1.file_path =
      some (getDocumentPath download_dir now doc organize) ∧
    (downloadSingleDocument env download_dir now doc false organize).1.file_size =
      some (env.fileSize (getDocumentPath download_dir now doc organize)) ∧
    (downloadSingleDocument env download_dir now doc false organize).2 = [] := by
  have hcond : env.fileExists (getDocumentPath download_dir now doc organize)
      ∧ ¬ (false : Bool) = true := ⟨hex, by simp⟩
  refine ⟨?_, ?_, ?_, ?_, ?_, ?_⟩
  · intro r hr
    rcases List.mem_map.mp hr with ⟨d, hd, rfl⟩
    rw [docInfo_downloadSingleDocument]
    intro hdd
    subst hdd
    have hd' : d ∈ documents.filter (fun doc =>
        ¬ env.fileExists (getDocumentPath download_dir now doc organize)) := by
      simpa [documentsToDownload] using hd
    have := List.of_mem_filter hd'
    simp [hex] at this
  · intro hmem
    rcases List.mem_join.mp hmem with ⟨l, hl, hdl⟩
    rcases List.mem_map.mp hl with ⟨d, hd, rfl⟩
    have hde := fetched_downloadSingleDocument env download_dir now d doc false organize hdl
    subst hde
    have hd' : doc ∈ documents.filter (fun x =>
        ¬ env.fileExists (getDocumentPath download_dir now x organize)) := by
      simpa [documentsToDownload] using hd
    have := List.of_mem_filter hd'
    simp [hex] at this
  · unfold downloadSingleDocument
    rw [if_pos hcond]
  · unfold downloadSingleDocument
    rw [if_pos hcond]
  · unfold downloadSingleDocument
    rw [if_pos hcond]
  · unfold downloadSingleDocument
    rw [if_pos hcond]

/-- Witness for C4's amended theorem at a concrete one-document batch. -/
theorem c4_skip_existing_no_outcome_witness :
    (∀ r ∈ (downloadDocuments ⟨fun _ => true, fun _ => 5000, fun _ => Except.error "net"⟩
        "dl" "t" [sampleDocInfo] false true).1,
      r.document_info ≠ sampleDocInfo) ∧
    sampleDocInfo ∉ (downloadDocuments ⟨fun _ => true, fun _ => 5000, fun _ => Except.error "net"⟩
        "dl" "t" [sampleDocInfo] false true).2 ∧
    (downloadSingleDocument ⟨fun _ => true, fun _ => 5000, fun _ => Except.error "net"⟩
        "dl" "t" sampleDocInfo false true).1.success = true ∧
    (downloadSingleDocument ⟨fun _ => true, fun _ => 5000, fun _ => Except.error "net"⟩
        "dl" "t" sampleDocInfo false true).1.file_path =
      some (getDocumentPath "dl" "t" sampleDocInfo true) ∧
    (downloadSingleDocument ⟨fun _ => true, fun _ => 5000, fun _ => Except.error "net"⟩
        "dl" "t" sampleDocInfo false true).1.file_size = some 5000 ∧
    (downloadSingleDocument ⟨fun _ => true, fun _ => 5000, fun _ => Except.error "net"⟩
        "dl" "t" sampleDocInfo false true).2 = [] :=
  c4_skip_existing_no_outcome ⟨fun _ => true, fun _ => 5000, fun _ => Except.error "net"⟩
    "dl" "t" [sampleDocInfo] true sampleDocInfo rfl

/-- Counterexample to C4 as stated: one document whose path exists, overwrite
false — the result list is empty, so no successful outcome for it is
returned. -/
theorem c4_counterexample :
    (downloadDocuments ⟨fun _ => true, fun _ => 5000, fun _ => Except.error "net"⟩
      "dl" "t" [sampleDocInfo] false true).1 = [] := by
  decide

/-- One configured source location as seen by watch_for_updates: its name and
url, plus what _check_url_for_documents does for it — raise (error message) or
return the (new, updated) documents discovered there. -/
structure WatchSource where
  url_name : String
  url : String
  outcome : Except String (List DocumentInfo × List DocumentInfo)

/-- The error string appended for a failing source. -/
def sourceError (s : WatchSource) (e : String) : String :=
  "Error checking " ++ s.url_name ++ " (" ++ s.url ++ "): " ++ e

/-- Result of one watch run (naac_watcher.WatchResult). -/
structure WatchResult where
  total_documents_found : Nat
  new_documents : List DocumentInfo
  updated_documents : List DocumentInfo
  errors : List String
  success : Bool

/-- Loop body of watch_for_updates over one source. -/
def watchStep (acc : List DocumentInfo × List DocumentInfo × List String)
    (s : WatchSource) : List DocumentInfo × List DocumentInfo × List String :=
  match s.outcome with
  | Except.ok p => (acc.1 ++ p.1, acc.2.1 ++ p.2, acc.2.2)
  | Except.error e => (acc.1, acc.2.1, acc.2.2 ++ [sourceError s e])

/-- NAACWebsiteWatcher.watch_for_updates over the configured sources. -/
def watchForUpdates (srcs : List WatchSource) : WatchResult :=
  { total_documents_found := (srcs.foldl watchStep ([], [], [])).1.length +
      (srcs.foldl watchStep ([], [], [])).2.1.length,
    new_documents := (srcs.foldl watchStep ([], [], [])).1,
    updated_documents := (srcs.foldl watchStep ([], [], [])).2.1,
    errors := (srcs.foldl watchStep ([], [], [])).2.2,
    success := (srcs.foldl watchStep ([], [], [])).2.2.isEmpty }

/-- New documents contributed by a source list. -/
def newDocsOf (srcs : List WatchSource) : List DocumentInfo :=
  (srcs.map (fun s => match s.outcome with
    | Except.ok p => p.1
    | Except.error _ => [])).join

/-- Updated documents contributed by a source list. -/
def updatedDocsOf (srcs : List WatchSource) : List DocumentInfo :=
  (srcs.map (fun s => match s.outcome with
    | Except.ok p => p.2
    | Except.error _ => [])).join

/-- Error strings contributed by a source list. -/
def errorsOf (srcs : List WatchSource) : List String :=
  srcs.filterMap (fun s => match s.outcome with
    | Except.ok _ => none
    | Except.error e => some (sourceError s e))

lemma watchFold_closed (srcs : List WatchSource) :
    ∀ acc : List DocumentInfo × List DocumentInfo × List String,
      srcs.foldl watchStep acc =
        (acc.1 ++ newDocsOf srcs, acc.2.1 ++ updatedDocsOf srcs,
         acc.2.2 ++ errorsOf srcs) := by
  induction srcs with
  | nil => intro acc; simp [newDocsOf, updatedDocsOf, errorsOf]
  | cons s srcs ih =>
    intro acc
    rw [List.foldl_cons, ih]
    unfold watchStep newDocsOf updatedDocsOf errorsOf
    cases h : s.outcome with
    | ok p => simp [h]
    | error e => simp [h]

/-- C7: an exception while fetching one source appends exactly one error
string for that source; the other sources are still processed and their
discovered documents appear in the result; and the run's success flag is true
exactly when the accumulated error list is empty. -/
theorem c7_source_failure_isolation (pre post : List WatchSource)
    (name url e : String) :
    (watchForUpdates (pre ++ WatchSource.mk name url (Except.error e) :: post)).errors =
      errorsOf pre ++ sourceError (WatchSource.mk name url (Except.error e)) e ::
        errorsOf post ∧
    (watchForUpdates (pre ++ WatchSource.mk name url (Except.error e) :: post)).new_documents =
      newDocsOf pre ++ newDocsOf post ∧
    (watchForUpdates (pre ++ WatchSource.mk name url (Except.error e) :: post)).updated_documents =
      updatedDocsOf pre ++ updatedDocsOf post ∧
    ∀ srcs : List WatchSource,
      (watchForUpdates srcs).success = true ↔ (watchForUpdates srcs).errors = [] := by
  refine ⟨?_, ?_, ?_, ?_⟩
  · show (((pre ++ WatchSource.mk name url (Except.error e) :: post).foldl
      watchStep ([], [], []))).2.2 = _
    rw [watchFold_closed]
    unfold errorsOf
    simp
  · show (((pre ++ WatchSource.mk name url (Except.error e) :: post).foldl
      watchStep ([], [], []))).1 = _
    rw [watchFold_closed]
    unfold newDocsOf
    simp
  · show (((pre ++ WatchSource.mk name url (Except.error e) :: post).foldl
      watchStep ([], [], []))).2.1 = _
    rw [watchFold_closed]
    unfold updatedDocsOf
    simp
  · intro srcs
    show ((srcs.foldl watchStep ([], [], []))).2.2.isEmpty = true ↔
      ((srcs.foldl watchStep ([], [], []))).2.2 = []
    rw [List.isEmpty_iff]

/-- Lowercasing, matching Python str.lower on the ASCII text involved. -/
def lowerStr (s : String) : String := (s.data.map Char.toLower).asString

/-- Index of the first occurrence of `pat` in `t` (re.search of a literal). -/
def findSub (pat : List Char) : List Char → Option Nat
  | [] => if pat.isPrefixOf ([] : List Char) then some 0 else none
  | c :: rest =>
    if pat.isPrefixOf (c :: rest) then some 0
    else (findSub pat rest).map (fun n => n + 1)

/-- re.search of `l1.*l2.*...*lk` over `t` for literal pieces: each literal is
found in order, each after the end of the previous one (matching at the
earliest occurrence preserves existence). -/
def matchesSeq : List String → List Char → Bool
  | [], _ => true
  | lit :: rest, t =>
    match findSub lit.toList t with
    | some j => matchesSeq rest (t.drop (j + lit.length))
    | none => false

/-- re.search of an alternation of literal-sequence branches. -/
def matchesAlt (alts : List (List String)) (t : List Char) : Bool :=
  alts.any (fun alt => matchesSeq alt t)

/-- NAACWebsiteWatcher.criterion_patterns, with each regex written as its
alternation of `.*`-separated literal pieces. -/
def criterionPatterns : List (String × List (List String)) :=
  [("1", [["curricular"], ["curriculum"], ["academic", "program"]]),
   ("2", [["teaching", "learning"], ["faculty"], ["evaluation"], ["assessment"]]),
   ("3", [["research"], ["innovation"], ["extension"], ["consultancy"]]),
   ("4", [["infrastructure"], ["learning", "resources"], ["library"], ["laboratory"]]),
   ("5", [["student", "support"], ["progression"], ["guidance"]]),
   ("6", [["governance"], ["leadership"], ["management"], ["administration"]]),
   ("7", [["institutional", "values"], ["best", "practices"], ["distinctiveness"]])]

/-- Python regex whitespace class over the characters that can occur here. -/
def isPySpace (c : Char) : Bool :=
  c = ' ' ∨ c = '\t' ∨ c = '\n' ∨ c = '\x0d' ∨ c = '\x0b' ∨ c = '\x0c'

/-- The tail of the pattern `criterion\s*[:\-]?\s*(\d+)` applied right after an
occurrence of the literal `criterion`: skip whitespace, one optional colon or
dash, whitespace, then capture one or more digits. -/
def criterionNumAt (t : List Char) : Option (List Char) :=
  match (match t.dropWhile isPySpace with
         | c :: rest => if c = ':' ∨ c = '-' then rest else t.dropWhile isPySpace
         | [] => t.dropWhile isPySpace).dropWhile isPySpace with
  | rest =>
    if (rest.takeWhile Char.isDigit) = [] then none
    else some (rest.takeWhile Char.isDigit)

/-- Leftmost match of `criterion\s*[:\-]?\s*(\d+)`: at each occurrence of the
literal `criterion`, try the rest of the pattern; otherwise continue. -/
def findCriterionNumber : List Char → Option (List Char)
  | [] => none
  | c :: rest =>
    if ("criterion".toList).isPrefixOf (c :: rest) then
      match criterionNumAt ((c :: rest).drop 9) with
      | some ds => some ds
      | none => findCriterionNumber rest
    else findCriterionNumber rest

/-- NAACWebsiteWatcher._detect_criterion: first keyword pattern matching the
lowercased `title url source` text wins; otherwise an explicit criterion
number; otherwise None (no criterion). -/
def detectCriterion (title url source : String) : Option String :=
  match criterionPatterns.find? (fun p =>
      matchesAlt p.2 (lowerStr (title ++ " " ++ url ++ " " ++ source)).data) with
  | some p => some p.1
  | none =>
    match findCriterionNumber
        (lowerStr (title ++ " " ++ url ++ " " ++ source)).data with
    | some ds => some ds.asString
    | none => none

/-- C8 (amended): a document text matching no criterion keyword pattern and
containing no explicit criterion number gets no criterion at all (None), not
the string value "unclassified" the spec names. -/
theorem c8_default_criterion_is_none (title url source : String)
    (hpat : ∀ p ∈ criterionPatterns,
      matchesAlt p.2 (lowerStr (title ++ " " ++ url ++ " " ++ source)).data = false)
    (hnum : findCriterionNumber
      (lowerStr (title ++ " " ++ url ++ " " ++ source)).data = none) :
    detectCriterion title url source = none := by
  unfold detectCriterion
  rw [List.find?_eq_none.mpr, hnum]
  intro p hp
  simp [hpat p hp]

/-- Witness for C8's amended theorem at a concrete unmatched text. -/
theorem c8_default_criterion_is_none_witness :
    detectCriterion "Notes" "n.pdf" "s2" = none :=
  c8_default_criterion_is_none "Notes" "n.pdf" "s2" (by decide) (by decide)

/-- Counterexample to C8 as stated: an unmatched document gets criterion None,
not "unclassified". -/
theorem c8_counterexample :
    detectCriterion "Annual Data" "a.pdf" "site" = none ∧
    detectCriterion "Annual Data" "a.pdf" "site" ≠ some "unclassified" := by
  refine ⟨by decide, by decide⟩

/-- The four phases of one auto-ingest cycle. -/
inductive Phase
  | watching
  | downloading
  | reconciling
  | cleaning
deriving Repr, DecidableEq

/-- auto_ingest.AutoIngestReport (aggregate counters only). -/
structure AutoIngestReport where
  documents_detected : Nat := 0
  new_documents_found : Nat := 0
  updated_documents_found : Nat := 0
  download_attempts : Nat := 0
  successful_downloads : Nat := 0
  failed_downloads : Nat := 0
  new_versions_created : Nat := 0
  documents_updated : Nat := 0
  knowledge_base_updates : Nat := 0
  ingestion_failures : Nat := 0
  success : Bool := false
  error_messages : List String := []
deriving Repr, DecidableEq

/-- Behaviour of the collaborating phases as run_full_update_cycle sees them:
the watch phase result, the downloader, the version manager, and whether the
cleanup work raises. -/
structure CycleEnv where
  watch : WatchResult
  download : List DocumentInfo → List DownloadResult
  version_report : List DownloadResult → UpdateReport
  cleanup : Except String Unit

/-- The criteria filter of run_full_update_cycle (`doc.criterion in
specific_criteria`; a missing criterion never matches). -/
def criteriaFilter (crit : Option (List String)) (docs : List DocumentInfo) :
    List DocumentInfo :=
  match crit with
  | none => docs
  | some cs => docs.filter (fun d => match d.criterion with
      | some c => cs.contains c
      | none => false)

/-- Documents handed to the download phase. -/
def docsToProcess (env : CycleEnv) (crit : Option (List String)) :
    List DocumentInfo :=
  criteriaFilter crit (env.watch.new_documents ++ env.watch.updated_documents)

/-- NAACAutoIngest._run_cleanup_phase: every exception is caught and logged,
so the phase completes either way. -/
def runCleanupPhase (c : Except String Unit) : Unit :=
  match c with
  | Except.ok _ => ()
  | Except.error _ => ()

/-- The report after the cleanup phase: the completed (possibly failed-and-
caught) cleanup changes nothing. -/
def withCleanup (u : Unit) (rep : AutoIngestReport) : AutoIngestReport := rep

/-- Watch-phase counters of the report. -/
def baseReport (env : CycleEnv) : AutoIngestReport :=
  { documents_detected := env.watch.total_documents_found,
    new_documents_found := env.watch.new_documents.length,
    updated_documents_found := env.watch.updated_documents.length }

/-- Download-phase counters of the report. -/
def downloadCounts (env : CycleEnv) (crit : Option (List String))
    (rep : AutoIngestReport) : AutoIngestReport :=
  { rep with
    download_attempts := (docsToProcess env crit).length
    successful_downloads :=
      ((env.download (docsToProcess env crit)).filter (fun r => r.success)).length
    failed_downloads :=
      ((env.download (docsToProcess env crit)).filter (fun r => !r.success)).length }

/-- NAACAutoIngest.run_full_update_cycle, paired with the list of phases that
actually ran. -/
def runFullUpdateCycle (env : CycleEnv) (crit : Option (List String)) :
    AutoIngestReport × List Phase :=
  if env.watch.success = false then
    ({ error_messages := env.watch.errors, success := false }, [Phase.watching])
  else if (docsToProcess env crit).isEmpty then
    ({ baseReport env with success := true }, [Phase.watching])
  else if ((env.download (docsToProcess env crit)).filter
      (fun r => r.success)).isEmpty then
    (withCleanup (runCleanupPhase env.cleanup)
      { downloadCounts env crit (baseReport env) with success := true },
     [Phase.watching, Phase.downloading, Phase.cleaning])
  else
    (withCleanup (runCleanupPhase env.cleanup)
      { downloadCounts env crit (baseReport env) with
        new_versions_created := (env.version_report ((env.download
          (docsToProcess env crit)).filter (fun r => r.success))).new_documents
        documents_updated := (env.version_report ((env.download
          (docsToProcess env crit)).filter (fun r => r.success))).updated_documents
        knowledge_base_updates := (env.version_report ((env.download
          (docsToProcess env crit)).filter (fun r => r.success))).knowledge_base_updates.length
        ingestion_failures := (env.version_report ((env.download
          (docsToProcess env crit)).filter (fun r => r.success))).failed_operations
        success := true },
     [Phase.watching, Phase.downloading, Phase.reconciling, Phase.cleaning])

/-- C6: a detector failure returns immediately with the detector's errors and
runs no later phase; with a successful detection the cycle always completes
with success = true whatever the per-document download outcomes are, the
downloading and cleanup phases run whenever there is work, and the cleanup
outcome (raise or not — it is caught) never changes the cycle's result. -/
theorem c6_detector_failure_is_only_abort (env : CycleEnv)
    (crit : Option (List String)) :
    (env.watch.success = false →
      (runFullUpdateCycle env crit).1.error_messages = env.watch.errors ∧
      (runFullUpdateCycle env crit).1.success = false ∧
      (runFullUpdateCycle env crit).2 = [Phase.watching]) ∧
    (env.watch.success = true →
      (runFullUpdateCycle env crit).1.success = true) ∧
    (env.watch.success = true → docsToProcess env crit ≠ [] →
      Phase.downloading ∈ (runFullUpdateCycle env crit).2 ∧
      Phase.cleaning ∈ (runFullUpdateCycle env crit).2 ∧
      Phase.watching ∈ (runFullUpdateCycle env crit).2) ∧
    (∀ c : Except String Unit,
      runFullUpdateCycle ⟨env.watch, env.download, env.version_report, c⟩ crit =
        runFullUpdateCycle env crit) := by
  refine ⟨?_, ?_, ?_, ?_⟩
  · intro hw
    unfold runFullUpdateCycle
    rw [if_pos hw]
    exact ⟨rfl, rfl, rfl⟩
  · intro hw
    unfold runFullUpdateCycle
    rw [if_neg (by simp [hw])]
    split
    · rfl
    · split
      · rfl
      · rfl
  · intro hw hdocs
    unfold runFullUpdateCycle
    rw [if_neg (by simp [hw]), if_neg (by simpa using hdocs)]
    split
    · refine ⟨by simp, by simp, by simp⟩
    · refine ⟨by simp, by simp, by simp⟩
  · intro c
    rfl

/-- Witness for C6 at a concrete failing detector. -/
theorem c6_detector_failure_is_only_abort_witness :
    (runFullUpdateCycle ⟨⟨0, [], [], ["boom"], false⟩, fun _ => [],
      fun _ => ⟨0, 0, 0, 0, [], []⟩, Except.error "cleanup blew up"⟩ none).1.error_messages
      = ["boom"] ∧
    (runFullUpdateCycle ⟨⟨0, [], [], ["boom"], false⟩, fun _ => [],
      fun _ => ⟨0, 0, 0, 0, [], []⟩, Except.error "cleanup blew up"⟩ none).1.success = false ∧
    (runFullUpdateCycle ⟨⟨0, [], [], ["boom"], false⟩, fun _ => [],
      fun _ => ⟨0, 0, 0, 0, [], []⟩, Except.error "cleanup blew up"⟩ none).2 =
      [Phase.watching] :=
  (c6_detector_failure_is_only_abort ⟨⟨0, [], [], ["boom"], false⟩, fun _ => [],
    fun _ => ⟨0, 0, 0, 0, [], []⟩, Except.error "cleanup blew up"⟩ none).1 rfl

/-- NAACUpdateScheduler._check_system_health over the data it inspects: the
scheduler running flag and the success flags of the 48-hour job history.
`10 * successes >= 9 * total` is `success_rate >= 0.9` exactly for every
reachable history (at most 1000 entries, far below float-rounding scale). -/
def checkSystemHealth (running : Bool) (recent_jobs : List Bool) : String :=
  if running = false then "critical"
  else if recent_jobs.isEmpty then "warning"
  else if 10 * recent_jobs.countP id ≥ 9 * recent_jobs.length then "healthy"
  else if 10 * recent_jobs.countP id ≥ 7 * recent_jobs.length then "warning"
  else "critical"

/-- C9 (amended): with the scheduler running, the classification is healthy at
a success ratio of at least 90 percent, warning between 70 and 90 percent
**or when there is no recent execution data**, and critical below 70 percent
(or when the scheduler is not running); the pure classification never returns
"unknown" — that value arises only from the function's exception handler. -/
theorem c9_health_classification (running : Bool) (jobs : List Bool) :
    (running = true → jobs = [] → checkSystemHealth running jobs = "warning") ∧
    (running = true → jobs ≠ [] →
      (10 * jobs.countP id ≥ 9 * jobs.length →
        checkSystemHealth running jobs = "healthy") ∧
      (10 * jobs.countP id < 9 * jobs.length →
        10 * jobs.countP id ≥ 7 * jobs.length →
        checkSystemHealth running jobs = "warning") ∧
      (10 * jobs.countP id < 7 * jobs.length →
        checkSystemHealth running jobs = "critical")) ∧
    (running = false → checkSystemHealth running jobs = "critical") ∧
    (∀ rjobs : List Bool, checkSystemHealth true rjobs ≠ "unknown") := by
  refine ⟨?_, ?_, ?_, ?_⟩
  · intro hr hj
    subst hr hj
    rfl
  · intro hr hj
    subst hr
    refine ⟨?_, ?_, ?_⟩
    · intro h9
      unfold checkSystemHealth
      rw [if_neg (by simp), if_neg (by simpa using hj), if_pos h9]
    · intro h9 h7
      unfold checkSystemHealth
      rw [if_neg (by simp), if_neg (by simpa using hj), if_neg (by omega),
        if_pos h7]
    · intro h7
      unfold checkSystemHealth
      rw [if_neg (by simp), if_neg (by simpa using hj), if_neg (by omega),
        if_neg (by omega)]
  · intro hr
    subst hr
    rfl
  · intro rjobs
    unfold checkSystemHealth
    rw [if_neg (by simp)]
    split
    · decide
    · split
      · decide
      · split
        · decide
        · decide

/-- Witness for C9's amended theorem: no recent data classifies as warning,
nine of ten successes as healthy. -/
theorem c9_health_classification_witness :
    checkSystemHealth true [] = "warning" ∧
    checkSystemHealth true
      [true, true, true, true, true, true, true, true, true, false] = "healthy" :=
  ⟨(c9_health_classification true []).1 rfl rfl,
   ((c9_health_classification true
      [true, true, true, true, true, true, true, true, true, false]).2.1 rfl
      (by decide)).1 (by decide)⟩

/-- Counterexample to C9 as stated: with no recent execution data the code
returns "warning", not "unknown". -/
theorem c9_counterexample :
    checkSystemHealth true [] = "warning" ∧
    checkSystemHealth true [] ≠ "unknown" := by
  refine ⟨by decide, by decide⟩

end EduBot
